import Mathlib

/-!
Verification of the rustbank CouchDB client (src/src/lib.rs) against its
specification. The Rust code is shallowly embedded: serde_json values become
an inductive `Value` (numbers are modelled as integers; no claim depends on a
numeric payload), the blocking reqwest transport becomes an oracle
`Env : Request → Except String Response`, and each client method is a Lean
function that additionally returns the list of requests it issued. Rust
panics (`unwrap` on `None` / on a non-string `Value`) are modelled by the
`PResult.panicked` outcome, so crashing and returning an error are
distinguishable.
-/

namespace Rustbank

/-- serde_json::Value. Objects are association lists (first match wins on
lookup, insert replaces an existing key), mirroring serde_json::Map. -/
inductive Value where
  | null
  | bool (b : Bool)
  | num (n : Int)
  | str (s : String)
  | arr (xs : List Value)
  | obj (m : List (String × Value))

/-- serde_json::Map::get (first binding of the key). -/
def getMap : List (String × Value) → String → Option Value
  | [], _ => none
  | (k, v) :: rest, key => if k = key then some v else getMap rest key

/-- serde_json::Map::contains_key. -/
def containsKey (m : List (String × Value)) (key : String) : Bool :=
  (getMap m key).isSome

/-- serde_json::Map::insert: replace the existing binding, else append. -/
def insertMap : List (String × Value) → String → Value → List (String × Value)
  | [], k, v => [(k, v)]
  | (k', v') :: rest, k, v =>
    if k' = k then (k, v) :: rest else (k', v') :: insertMap rest k v

/-- Outcome of running Rust code that may panic (`unwrap`). -/
inductive PResult (α : Type) where
  | panicked (msg : String)
  | value (a : α)

/-- struct CouchDBError { code, reason }. -/
structure CouchDBError where
  code : String
  reason : String
deriving DecidableEq

/-- enum Error: the unified error type. Reqwest and Serde payloads are kept
as message strings (their internals are opaque to this library). -/
inductive Error where
  | Reqwest (e : String)
  | CouchDB (e : CouchDBError)
  | Serde (e : String)
  | Custom (s : String)
deriving DecidableEq

/-- fn fetch_value_from_map: `map.get(key).unwrap().as_str().unwrap()`.
Both unwraps panic on failure. -/
def fetch_value_from_map (map : List (String × Value)) (key : String) :
    PResult String :=
  match getMap map key with
  | none => .panicked "unwrap on None"
  | some (.str s) => .value s
  | some _ => .panicked "as_str gave None"

/-- fn to_result: error-envelope detection, then deserialization. The target
type's serde deserializer is abstracted as `deser`; `serde_json::from_value`
failure maps to `Error::Serde` via the From impl. -/
def to_result {D : Type} (deser : Value → Except String D) (value : Value) :
    PResult (Except Error D) :=
  match value with
  | .obj map =>
    if containsKey map "error" && containsKey map "reason" then
      match fetch_value_from_map map "error" with
      | .panicked m => .panicked m
      | .value code =>
        match fetch_value_from_map map "reason" with
        | .panicked m => .panicked m
        | .value reason => .value (.error (.CouchDB ⟨code, reason⟩))
    else
      match deser (.obj map) with
      | .error e => .value (.error (.Serde e))
      | .ok d => .value (.ok d)
  | v =>
    match deser v with
    | .error e => .value (.error (.Serde e))
    | .ok d => .value (.ok d)

/-- The requests a client can issue (the reqwest verbs used by lib.rs). -/
inductive Request where
  | head (url : String)
  | get (url : String)
  | put (url : String)
  | postJson (url : String) (body : Value)
  | putJson (url : String) (body : Value)
  | delete (url : String)

/-- An HTTP response: the header list as seen by reqwest iteration (the
`Option String` is the result of `HeaderValue::to_str`, `none` when the value
does not decode as text), and the result of `.json()` on the body. -/
structure Response where
  headers : List (String × Option String)
  body : Except String Value

/-- The network oracle: what `send()` returns for each request. An `error`
is a transport (reqwest) failure of `send()` itself. -/
def Env : Type := Request → Except String Response

/-- struct Config. -/
structure Config where
  url : String
  database_name : String

/-- The collection URL `format!("{}/{}", config.url, config.database_name)`. -/
def dbUrl (cfg : Config) : String :=
  cfg.url ++ "/" ++ cfg.database_name

/-- The document URL `format!("{}/{}/{}", config.url, config.database_name, id)`. -/
def docUrl (cfg : Config) (id : String) : String :=
  cfg.url ++ "/" ++ cfg.database_name ++ "/" ++ id

/-- Shared shape of get/put/post_json/delete: `send()?.json()?`, both
failure modes wrapped as `Error::Reqwest`. -/
def sendJson (env : Env) (req : Request) : Except Error Value :=
  match env req with
  | .error e => .error (.Reqwest e)
  | .ok resp =>
    match resp.body with
    | .error e => .error (.Reqwest e)
    | .ok v => .ok v

/-- Client::head: collect every response header whose value decodes as text
into a JSON object; undecodable headers are skipped. The body is not read. -/
def collectHeaders (hs : List (String × Option String)) :
    List (String × Value) :=
  hs.foldl
    (fun m kv =>
      match kv.2 with
      | some s => insertMap m kv.1 (.str s)
      | none => m)
    []

/-- Client::head as a function of the oracle. -/
def headReq (env : Env) (url : String) : Except Error Value :=
  match env (.head url) with
  | .error e => .error (.Reqwest e)
  | .ok resp => .ok (.obj (collectHeaders resp.headers))

/-- str::trim_matches(c): strip every leading and trailing occurrence. -/
def trimMatches (c : Char) (s : String) : String :=
  let l := (s.toList.dropWhile (fun x => x == c))
  String.mk ((l.reverse.dropWhile (fun x => x == c)).reverse)

/-- trait CouchDBObject. `get_id` and `has_rev` keep their Rust default
bodies but remain overridable, exactly as in the trait. `update_rev` returns
the mutated value (the Rust `&mut self` made explicit). -/
class CouchDBObject (α : Type) where
  to_id : α → String
  get_id : α → String := to_id
  get_rev : α → Option String
  has_rev : α → Bool := fun a => (get_rev a).isSome
  update_rev : α → String → α

/-- trait serde::Serialize, reduced to the JSON value it produces. -/
class Serializable (α : Type) where
  serialize : α → Value

open CouchDBObject Serializable

/-- Client::get_latest_revision. Returns the outcome (a panic is possible in
the source via `tag_value.as_str().unwrap()`) and the list of requests
issued — always exactly the one HEAD probe. `to_result` is instantiated at
`D = serde_json::Value`, whose deserializer never fails. -/
def get_latest_revision (env : Env) (cfg : Config) (id : String) :
    PResult (Except Error String) × List Request :=
  let url := docUrl cfg id
  let out : PResult (Except Error String) :=
    match headReq env url with
    | .error e => .value (.error e)
    | .ok res =>
      match to_result (fun v => (.ok v : Except String Value)) res with
      | .panicked m => .panicked m
      | .value (.error e) => .value (.error e)
      | .value (.ok (.obj map)) =>
        match getMap map "etag" with
        | none => .value (.error (.Custom "Invalid etag header"))
        | some (.str s) => .value (.ok (trimMatches '"' s))
        | some _ => .panicked "as_str gave None"
      | .value (.ok _) => .value (.error (.Custom "Invalid etag header"))
  (out, [Request.head url])

/-- Client::update_object. `fuel` bounds the (source-level unbounded)
recursion: `none` means the recursion did not finish within `fuel` unfoldings.
The final component is the request trace; the middle component is the state
of `body` when the call returns (its `&mut` parameter). -/
def update_object {α D : Type} [Serializable α] [CouchDBObject α]
    (env : Env) (cfg : Config) (deser : Value → Except String D) :
    Nat → α → Option (PResult (Except Error D) × α × List Request)
  | 0, _ => none
  | fuel + 1, body =>
    let url := dbUrl cfg
    if has_rev body then
      let req := Request.postJson url (serialize body)
      match sendJson env req with
      | .error e => some (.value (.error e), body, [req])
      | .ok res => some (to_result deser res, body, [req])
    else
      let id := get_id body
      match get_latest_revision env cfg id with
      | (.panicked m, tr) => some (.panicked m, body, tr)
      | (.value (.error e), tr) => some (.value (.error e), body, tr)
      | (.value (.ok rev), tr) =>
        let body2 := update_rev body rev
        match update_object env cfg deser fuel body2 with
        | none => none
        | some (out, b, tr2) => some (out, b, tr ++ tr2)

/-- Client::delete_object. Same conventions as `update_object`. In the
revisioned branch the source unwraps `get_rev`, which panics before any
request is issued when an implementation makes `has_rev` true while
`get_rev` is `None`. -/
def delete_object {α D : Type} [Serializable α] [CouchDBObject α]
    (env : Env) (cfg : Config) (deser : Value → Except String D) :
    Nat → α → Option (PResult (Except Error D) × α × List Request)
  | 0, _ => none
  | fuel + 1, body =>
    if has_rev body then
      let id := get_id body
      match get_rev body with
      | none => some (.panicked "unwrap on None", body, [])
      | some rev =>
        let url := docUrl cfg id ++ "?rev=" ++ rev
        match sendJson env (.delete url) with
        | .error e => some (.value (.error e), body, [Request.delete url])
        | .ok res => some (to_result deser res, body, [Request.delete url])
    else
      let id := get_id body
      match get_latest_revision env cfg id with
      | (.panicked m, tr) => some (.panicked m, body, tr)
      | (.value (.error e), tr) => some (.value (.error e), body, tr)
      | (.value (.ok rev), tr) =>
        let body2 := update_rev body rev
        match delete_object env cfg deser fuel body2 with
        | none => none
        | some (out, b, tr2) => some (out, b, tr ++ tr2)

/-- Client::delete_object_by_id: probe, then delete with `?rev=`. -/
def delete_object_by_id {D : Type} (env : Env) (cfg : Config)
    (deser : Value → Except String D) (id : String) :
    PResult (Except Error D) × List Request :=
  match get_latest_revision env cfg id with
  | (.panicked m, tr) => (.panicked m, tr)
  | (.value (.error e), tr) => (.value (.error e), tr)
  | (.value (.ok rev), tr) =>
    let url := docUrl cfg id ++ "?rev=" ++ rev
    match sendJson env (.delete url) with
    | .error e => (.value (.error e), tr ++ [Request.delete url])
    | .ok res => (to_result deser res, tr ++ [Request.delete url])

/-- A minimal document type used to exercise the generic operations: a
stored id and an optional revision, serialized with the reserved `_id` and
`_rev` names (`_rev` omitted when absent). Its trait implementation keeps
the default `get_id` and `has_rev` bodies and satisfies the contract that
`update_rev` makes `has_rev` true. -/
structure SimpleDoc where
  id : String
  rev : Option String
deriving DecidableEq

instance : CouchDBObject SimpleDoc where
  to_id d := d.id
  get_rev d := d.rev
  update_rev d r := { d with rev := some r }

instance : Serializable SimpleDoc where
  serialize d :=
    .obj ([("_id", Value.str d.id)]
      ++ (match d.rev with
          | some r => [("_rev", Value.str r)]
          | none => [])
      )

/-- Whether a JSON value is the server's error envelope: a top-level object
holding both an `error` and a `reason` key. -/
def isErrorEnvelope : Value → Bool
  | .obj m => containsKey m "error" && containsKey m "reason"
  | _ => false

/-- Whether a JSON value is a string (`Value::as_str` succeeds). -/
def Value.isString : Value → Bool
  | .str _ => true
  | _ => false

/-- The last header value for name `k` that decodes as text, if any — the
value `Client::head` ends up keeping for that name. -/
def lookupLastDecodable (k : String) :
    List (String × Option String) → Option String
  | [] => none
  | kv :: rest =>
    match lookupLastDecodable k rest with
    | some s => some s
    | none => if kv.1 = k then kv.2 else none

theorem getMap_insertMap (m : List (String × Value)) (k key : String)
    (v : Value) :
    getMap (insertMap m k v) key = if k = key then some v else getMap m key := by
  induction m with
  | nil => simp [insertMap, getMap]
  | cons kv rest ih =>
    obtain ⟨k', v'⟩ := kv
    simp only [insertMap]
    by_cases h : k' = k
    · subst h
      simp only [if_pos rfl, getMap]
      by_cases h2 : k' = key <;> simp [h2]
    · simp only [if_neg h, getMap]
      by_cases h2 : k' = key
      · subst h2
        have hkk : ¬(k = k') := fun hh => h hh.symm
        simp [hkk]
      · simp [h2, ih]

theorem getMap_headersFoldl (hs : List (String × Option String))
    (m : List (String × Value)) (k : String) :
    getMap (hs.foldl
        (fun m kv =>
          match kv.2 with
          | some s => insertMap m kv.1 (.str s)
          | none => m)
        m) k =
      match lookupLastDecodable k hs with
      | some s => some (.str s)
      | none => getMap m k := by
  induction hs generalizing m with
  | nil => simp [lookupLastDecodable]
  | cons kv rest ih =>
    obtain ⟨k', ov⟩ := kv
    simp only [List.foldl_cons]
    rw [ih]
    cases hL : lookupLastDecodable k rest with
    | some s => simp [lookupLastDecodable, hL]
    | none =>
      simp only [lookupLastDecodable, hL]
      cases ov with
      | none => simp
      | some s =>
        by_cases h : k' = k
        · subst h
          simp [getMap_insertMap]
        · simp [h, getMap_insertMap]

theorem getMap_collectHeaders (hs : List (String × Option String))
    (k : String) :
    getMap (collectHeaders hs) k = (lookupLastDecodable k hs).map Value.str := by
  rw [collectHeaders, getMap_headersFoldl]
  cases lookupLastDecodable k hs <;> simp [getMap]

theorem get_latest_revision_trace (env : Env) (cfg : Config) (id : String) :
    (get_latest_revision env cfg id).2 = [Request.head (docUrl cfg id)] := rfl

/-- Successful probe: the HEAD response arrives, its collected header map is
not an error envelope and holds a (necessarily string) `etag` value: the
probe returns the quote-stripped tag after exactly one request. -/
theorem get_latest_revision_of_etag (env : Env) (cfg : Config) (id : String)
    (resp : Response) (s : String)
    (hsend : env (.head (docUrl cfg id)) = .ok resp)
    (henv : (containsKey (collectHeaders resp.headers) "error"
        && containsKey (collectHeaders resp.headers) "reason") = false)
    (hetag : getMap (collectHeaders resp.headers) "etag" = some (.str s)) :
    get_latest_revision env cfg id
      = (.value (.ok (trimMatches '"' s)), [Request.head (docUrl cfg id)]) := by
  simp [get_latest_revision, headReq, to_result, hsend, henv, hetag]

/-- Failed probe: the HEAD response arrives, its collected header map is not
an error envelope and holds no `etag` key: the probe fails with the Custom
error after exactly one request (no retry). -/
theorem get_latest_revision_of_no_etag (env : Env) (cfg : Config)
    (id : String) (resp : Response)
    (hsend : env (.head (docUrl cfg id)) = .ok resp)
    (henv : (containsKey (collectHeaders resp.headers) "error"
        && containsKey (collectHeaders resp.headers) "reason") = false)
    (hetag : getMap (collectHeaders resp.headers) "etag" = none) :
    get_latest_revision env cfg id
      = (.value (.error (.Custom "Invalid etag header")),
         [Request.head (docUrl cfg id)]) := by
  simp [get_latest_revision, headReq, to_result, hsend, henv, hetag]

theorem update_object_of_has_rev {α D : Type} [Serializable α]
    [CouchDBObject α] (env : Env) (cfg : Config)
    (deser : Value → Except String D) (fuel : Nat) (body : α)
    (h : has_rev body = true) :
    ∃ out, update_object env cfg deser (fuel + 1) body
      = some (out, body, [Request.postJson (dbUrl cfg) (serialize body)]) := by
  cases hs : sendJson env (.postJson (dbUrl cfg) (serialize body)) with
  | error e => exact ⟨.value (.error e), by simp [update_object, h, hs]⟩
  | ok res => exact ⟨to_result deser res, by simp [update_object, h, hs]⟩

theorem update_object_of_probe_err {α D : Type} [Serializable α]
    [CouchDBObject α] (env : Env) (cfg : Config)
    (deser : Value → Except String D) (fuel : Nat) (body : α) (e : Error)
    (h : has_rev body = false)
    (hp : (get_latest_revision env cfg (get_id body)).1 = .value (.error e)) :
    update_object env cfg deser (fuel + 1) body
      = some (.value (.error e), body,
          [Request.head (docUrl cfg (get_id body))]) := by
  have hpair : get_latest_revision env cfg (get_id body)
      = (.value (.error e), [Request.head (docUrl cfg (get_id body))]) := by
    rw [← hp, ← get_latest_revision_trace]
  simp [update_object, h, hpair]

theorem update_object_of_probe_panic {α D : Type} [Serializable α]
    [CouchDBObject α] (env : Env) (cfg : Config)
    (deser : Value → Except String D) (fuel : Nat) (body : α) (m : String)
    (h : has_rev body = false)
    (hp : (get_latest_revision env cfg (get_id body)).1 = .panicked m) :
    update_object env cfg deser (fuel + 1) body
      = some (.panicked m, body,
          [Request.head (docUrl cfg (get_id body))]) := by
  have hpair : get_latest_revision env cfg (get_id body)
      = (.panicked m, [Request.head (docUrl cfg (get_id body))]) := by
    rw [← hp, ← get_latest_revision_trace]
  simp [update_object, h, hpair]

theorem update_object_of_probe_ok {α D : Type} [Serializable α]
    [CouchDBObject α] (env : Env) (cfg : Config)
    (deser : Value → Except String D) (fuel : Nat) (body : α) (rev : String)
    (h : has_rev body = false)
    (hc : has_rev (update_rev body rev) = true)
    (hp : (get_latest_revision env cfg (get_id body)).1 = .value (.ok rev)) :
    ∃ out, update_object env cfg deser (fuel + 2) body
      = some (out, update_rev body rev,
          [Request.head (docUrl cfg (get_id body)),
           Request.postJson (dbUrl cfg) (serialize (update_rev body rev))]) := by
  have hpair : get_latest_revision env cfg (get_id body)
      = (.value (.ok rev), [Request.head (docUrl cfg (get_id body))]) := by
    rw [← hp, ← get_latest_revision_trace]
  cases hs : sendJson env (.postJson (dbUrl cfg) (serialize (update_rev body rev))) with
  | error e =>
    exact ⟨.value (.error e), by simp [update_object, h, hpair, hc, hs]⟩
  | ok res =>
    exact ⟨to_result deser res, by simp [update_object, h, hpair, hc, hs]⟩

theorem delete_object_of_has_rev {α D : Type} [Serializable α]
    [CouchDBObject α] (env : Env) (cfg : Config)
    (deser : Value → Except String D) (fuel : Nat) (body : α)
    (h : has_rev body = true) :
    ∃ out tr, delete_object env cfg deser (fuel + 1) body
      = some (out, body, tr) ∧ tr.length ≤ 1 := by
  cases hr : get_rev body with
  | none =>
    exact ⟨.panicked "unwrap on None", [],
      by simp [delete_object, h, hr], by simp⟩
  | some rev =>
    cases hs : sendJson env
        (.delete (docUrl cfg (get_id body) ++ "?rev=" ++ rev)) with
    | error e =>
      exact ⟨.value (.error e),
        [Request.delete (docUrl cfg (get_id body) ++ "?rev=" ++ rev)],
        by simp [delete_object, h, hr, hs], by simp⟩
    | ok res =>
      exact ⟨to_result deser res,
        [Request.delete (docUrl cfg (get_id body) ++ "?rev=" ++ rev)],
        by simp [delete_object, h, hr, hs], by simp⟩

theorem delete_object_of_probe_err {α D : Type} [Serializable α]
    [CouchDBObject α] (env : Env) (cfg : Config)
    (deser : Value → Except String D) (fuel : Nat) (body : α) (e : Error)
    (h : has_rev body = false)
    (hp : (get_latest_revision env cfg (get_id body)).1 = .value (.error e)) :
    delete_object env cfg deser (fuel + 1) body
      = some (.value (.error e), body,
          [Request.head (docUrl cfg (get_id body))]) := by
  have hpair : get_latest_revision env cfg (get_id body)
      = (.value (.error e), [Request.head (docUrl cfg (get_id body))]) := by
    rw [← hp, ← get_latest_revision_trace]
  simp [delete_object, h, hpair]

theorem delete_object_of_probe_panic {α D : Type} [Serializable α]
    [CouchDBObject α] (env : Env) (cfg : Config)
    (deser : Value → Except String D) (fuel : Nat) (body : α) (m : String)
    (h : has_rev body = false)
    (hp : (get_latest_revision env cfg (get_id body)).1 = .panicked m) :
    delete_object env cfg deser (fuel + 1) body
      = some (.panicked m, body,
          [Request.head (docUrl cfg (get_id body))]) := by
  have hpair : get_latest_revision env cfg (get_id body)
      = (.panicked m, [Request.head (docUrl cfg (get_id body))]) := by
    rw [← hp, ← get_latest_revision_trace]
  simp [delete_object, h, hpair]

theorem delete_object_of_probe_ok {α D : Type} [Serializable α]
    [CouchDBObject α] (env : Env) (cfg : Config)
    (deser : Value → Except String D) (fuel : Nat) (body : α) (rev : String)
    (h : has_rev body = false)
    (hc : has_rev (update_rev body rev) = true)
    (hp : (get_latest_revision env cfg (get_id body)).1 = .value (.ok rev)) :
    ∃ out tr2, delete_object env cfg deser (fuel + 2) body
      = some (out, update_rev body rev,
          Request.head (docUrl cfg (get_id body)) :: tr2)
      ∧ tr2.length ≤ 1 := by
  have hpair : get_latest_revision env cfg (get_id body)
      = (.value (.ok rev), [Request.head (docUrl cfg (get_id body))]) := by
    rw [← hp, ← get_latest_revision_trace]
  cases hr : get_rev (update_rev body rev) with
  | none =>
    exact ⟨.panicked "unwrap on None", [],
      by simp [delete_object, h, hpair, hc, hr], by simp⟩
  | some rev2 =>
    cases hs : sendJson env
        (.delete (docUrl cfg (get_id (update_rev body rev)) ++ "?rev=" ++ rev2)) with
    | error e =>
      exact ⟨.value (.error e),
        [Request.delete (docUrl cfg (get_id (update_rev body rev)) ++ "?rev=" ++ rev2)],
        by simp [delete_object, h, hpair, hc, hr, hs], by simp⟩
    | ok res =>
      exact ⟨to_result deser res,
        [Request.delete (docUrl cfg (get_id (update_rev body rev)) ++ "?rev=" ++ rev2)],
        by simp [delete_object, h, hpair, hc, hr, hs], by simp⟩

/-! Concrete fixtures used by the witnesses. -/

/-- The identity deserializer: `serde_json::from_value::<Value>`. -/
def deserId : Value → Except String Value := fun v => .ok v

def cfgW : Config := ⟨"http://u:p@localhost:5984", "db"⟩

def respOk : Response := ⟨[("etag", some "\"1-abc\"")], .ok .null⟩

/-- A healthy server: HEAD answers with a quoted etag, everything else with
`{"ok": true}`. -/
def envW : Env := fun req =>
  match req with
  | .head _ => .ok respOk
  | _ => .ok ⟨[], .ok (.obj [("ok", .bool true)])⟩

def docNoRev : SimpleDoc := ⟨"d1", none⟩

def docWithRev : SimpleDoc := ⟨"d1", some "1-a"⟩

/-- C1: for every document without a revision tag (whose trait
implementation honours the contract that `update_rev` establishes the
revision), when the probe response arrives and its collected header map
carries an `etag` string (and is not itself an error envelope),
`update_object` performs exactly one metadata probe on the document's id
followed by exactly one mutating `post_json` to the collection URL, and the
document's revision field is assigned the quote-stripped etag value before
the mutating request is built: the mutate body serializes the
already-updated document. -/
theorem update_object_unrevisioned_probe_then_mutate {α D : Type}
    [Serializable α] [CouchDBObject α] (env : Env) (cfg : Config)
    (deser : Value → Except String D) (fuel : Nat) (body : α)
    (resp : Response) (s : String)
    (hnorev : has_rev body = false)
    (hc : has_rev (update_rev body (trimMatches '"' s)) = true)
    (hsend : env (.head (docUrl cfg (get_id body))) = .ok resp)
    (henv : (containsKey (collectHeaders resp.headers) "error"
        && containsKey (collectHeaders resp.headers) "reason") = false)
    (hetag : getMap (collectHeaders resp.headers) "etag" = some (.str s)) :
    ∃ out, update_object env cfg deser (fuel + 2) body
      = some (out, update_rev body (trimMatches '"' s),
          [Request.head (docUrl cfg (get_id body)),
           Request.postJson (dbUrl cfg)
             (serialize (update_rev body (trimMatches '"' s)))]) := by
  have hp : (get_latest_revision env cfg (get_id body)).1
      = .value (.ok (trimMatches '"' s)) := by
    rw [get_latest_revision_of_etag env cfg (get_id body) resp s hsend henv hetag]
  exact update_object_of_probe_ok env cfg deser fuel body _ hnorev hc hp

theorem update_object_unrevisioned_probe_then_mutate_witness :
    ∃ out, update_object envW cfgW deserId 2 docNoRev
      = some (out, (⟨"d1", some "1-abc"⟩ : SimpleDoc),
          [Request.head (docUrl cfgW "d1"),
           Request.postJson (dbUrl cfgW)
             (serialize (⟨"d1", some "1-abc"⟩ : SimpleDoc))]) :=
  update_object_unrevisioned_probe_then_mutate envW cfgW deserId 0 docNoRev
    respOk "\"1-abc\"" rfl rfl rfl rfl rfl

/-- C2: for every document that already carries a revision tag,
`update_object` issues exactly one network call — the mutating `post_json`
to the collection URL carrying the serialized document body — and zero
probe (head) calls: the trace is exactly that single POST. -/
theorem update_object_revisioned_single_mutate {α D : Type}
    [Serializable α] [CouchDBObject α] (env : Env) (cfg : Config)
    (deser : Value → Except String D) (fuel : Nat) (body : α)
    (h : has_rev body = true) :
    ∃ out, update_object env cfg deser (fuel + 1) body
      = some (out, body, [Request.postJson (dbUrl cfg) (serialize body)]) :=
  update_object_of_has_rev env cfg deser fuel body h

theorem update_object_revisioned_single_mutate_witness :
    ∃ out, update_object envW cfgW deserId 1 docWithRev
      = some (out, docWithRev,
          [Request.postJson (dbUrl cfgW) (serialize docWithRev)]) :=
  update_object_revisioned_single_mutate envW cfgW deserId 0 docWithRev rfl

/-- C3: every top-level JSON object holding string values under both the
`error` and the `reason` key is classified by `to_result` as a database
error built from those two strings, independently of the target-type
deserializer (which is never consulted) and of any other keys present. -/
theorem to_result_error_envelope_classified {D : Type}
    (deser : Value → Except String D) (map : List (String × Value))
    (c r : String)
    (he : getMap map "error" = some (.str c))
    (hr : getMap map "reason" = some (.str r)) :
    to_result deser (.obj map) = .value (.error (.CouchDB ⟨c, r⟩)) := by
  simp [to_result, containsKey, fetch_value_from_map, he, hr]

theorem to_result_error_envelope_classified_witness :
    to_result deserId
        (.obj [("error", .str "conflict"),
               ("reason", .str "Document update conflict."),
               ("ok", .bool true)])
      = .value (.error (.CouchDB ⟨"conflict", "Document update conflict."⟩)) :=
  to_result_error_envelope_classified deserId
    [("error", .str "conflict"),
     ("reason", .str "Document update conflict."),
     ("ok", .bool true)]
    "conflict" "Document update conflict." rfl rfl

/-- C4 counterexample: on the envelope `{"error": 1, "reason": "x"}` (both
keys present, `error` not a string) `to_result` panics — it crashes via the
`unwrap` in fetch_value_from_map instead of surfacing any error result to
the caller. -/
theorem to_result_nonstring_envelope_panics_cex :
    to_result deserId (.obj [("error", .num 1), ("reason", .str "x")])
        = .panicked "as_str gave None" ∧
    ∀ (r : Except Error Value),
      to_result deserId (.obj [("error", .num 1), ("reason", .str "x")])
        ≠ .value r := by
  refine ⟨rfl, fun r h => ?_⟩
  exact PResult.noConfusion
    (show PResult.panicked "as_str gave None" = PResult.value r from h)

/-- C4 amended: for every top-level JSON object containing both an `error`
and a `reason` key, when either value is present but not a string,
`to_result` panics (the process crashes on `unwrap`), rather than
surfacing an error result to the caller. -/
theorem to_result_nonstring_envelope_panics {D : Type}
    (deser : Value → Except String D) (map : List (String × Value))
    (vE vR : Value)
    (he : getMap map "error" = some vE)
    (hr : getMap map "reason" = some vR)
    (hns : vE.isString = false ∨ vR.isString = false) :
    ∃ m, to_result deser (.obj map) = .panicked m := by
  have hck : (containsKey map "error" && containsKey map "reason") = true := by
    simp [containsKey, he, hr]
  cases vE with
  | str sE =>
    have hvR : vR.isString = false := by
      rcases hns with h | h
      · exact absurd h (by simp [Value.isString])
      · exact h
    refine ⟨"as_str gave None", ?_⟩
    cases vR <;> simp_all [to_result, fetch_value_from_map, Value.isString]
  | null => exact ⟨"as_str gave None", by simp [to_result, hck, fetch_value_from_map, he]⟩
  | bool b => exact ⟨"as_str gave None", by simp [to_result, hck, fetch_value_from_map, he]⟩
  | num n => exact ⟨"as_str gave None", by simp [to_result, hck, fetch_value_from_map, he]⟩
  | arr xs => exact ⟨"as_str gave None", by simp [to_result, hck, fetch_value_from_map, he]⟩
  | obj m2 => exact ⟨"as_str gave None", by simp [to_result, hck, fetch_value_from_map, he]⟩

theorem to_result_nonstring_envelope_panics_witness :
    ∃ m, to_result deserId (.obj [("error", .str "conflict"), ("reason", .null)])
      = .panicked m :=
  to_result_nonstring_envelope_panics deserId
    [("error", .str "conflict"), ("reason", .null)]
    (.str "conflict") .null rfl rfl (Or.inr rfl)

/-- C5: for every trait implementation satisfying the contract that
`update_rev` makes `has_rev` true, both `update_object` and `delete_object`
terminate within recursion depth two for any fuel budget of at least two
(the recursion adds at most one extra hop), and each issues at most two
requests: one probe and one mutate. -/
theorem mutating_ops_two_round_trips {α D : Type}
    [Serializable α] [CouchDBObject α]
    (hcontract : ∀ (a : α) (r : String), has_rev (update_rev a r) = true)
    (env : Env) (cfg : Config) (deser : Value → Except String D)
    (fuel : Nat) (body : α) :
    (∃ out b tr, update_object env cfg deser (fuel + 2) body
        = some (out, b, tr) ∧ tr.length ≤ 2) ∧
    (∃ out b tr, delete_object env cfg deser (fuel + 2) body
        = some (out, b, tr) ∧ tr.length ≤ 2) := by
  constructor
  · cases h : has_rev body with
    | true =>
      obtain ⟨out, heq⟩ := update_object_of_has_rev env cfg deser (fuel + 1) body h
      exact ⟨out, body, _, heq, by simp⟩
    | false =>
      cases hp : (get_latest_revision env cfg (get_id body)).1 with
      | panicked m =>
        exact ⟨.panicked m, body, _,
          update_object_of_probe_panic env cfg deser (fuel + 1) body m h hp,
          by simp⟩
      | value x =>
        cases x with
        | error e =>
          exact ⟨.value (.error e), body, _,
            update_object_of_probe_err env cfg deser (fuel + 1) body e h hp,
            by simp⟩
        | ok rev =>
          obtain ⟨out, heq⟩ := update_object_of_probe_ok env cfg deser fuel
            body rev h (hcontract body rev) hp
          exact ⟨out, _, _, heq, by simp⟩
  · cases h : has_rev body with
    | true =>
      obtain ⟨out, tr, heq, hlen⟩ :=
        delete_object_of_has_rev env cfg deser (fuel + 1) body h
      exact ⟨out, body, tr, heq, hlen.trans (by norm_num)⟩
    | false =>
      cases hp : (get_latest_revision env cfg (get_id body)).1 with
      | panicked m =>
        exact ⟨.panicked m, body, _,
          delete_object_of_probe_panic env cfg deser (fuel + 1) body m h hp,
          by simp⟩
      | value x =>
        cases x with
        | error e =>
          exact ⟨.value (.error e), body, _,
            delete_object_of_probe_err env cfg deser (fuel + 1) body e h hp,
            by simp⟩
        | ok rev =>
          obtain ⟨out, tr2, heq, hlen⟩ := delete_object_of_probe_ok env cfg
            deser fuel body rev h (hcontract body rev) hp
          refine ⟨out, _, _, heq, ?_⟩
          simp only [List.length_cons]
          omega

theorem mutating_ops_two_round_trips_witness :
    (∃ out b tr, update_object envW cfgW deserId 2 docNoRev
        = some (out, b, tr) ∧ tr.length ≤ 2) ∧
    (∃ out b tr, delete_object envW cfgW deserId 2 docNoRev
        = some (out, b, tr) ∧ tr.length ≤ 2) :=
  mutating_ops_two_round_trips (fun _ _ => rfl) envW cfgW deserId 0 docNoRev

/-- C6: delete_object_by_id always issues the revision probe first, and
issues a DELETE — to the document URL with the probed revision appended as
the `?rev=` query parameter — exactly when the probe yields a revision. In
particular no delete is ever issued without the preceding probe. -/
theorem delete_object_by_id_probe_then_delete {D : Type} (env : Env)
    (cfg : Config) (deser : Value → Except String D) (id : String) :
    (delete_object_by_id env cfg deser id).2 =
      match (get_latest_revision env cfg id).1 with
      | .value (.ok rev) =>
        [Request.head (docUrl cfg id),
         Request.delete (docUrl cfg id ++ "?rev=" ++ rev)]
      | _ => [Request.head (docUrl cfg id)] := by
  cases hp : (get_latest_revision env cfg id).1 with
  | panicked m =>
    have hpair : get_latest_revision env cfg id
        = (.panicked m, [Request.head (docUrl cfg id)]) := by
      rw [← hp, ← get_latest_revision_trace]
    simp [delete_object_by_id, hpair]
  | value x =>
    cases x with
    | error e =>
      have hpair : get_latest_revision env cfg id
          = (.value (.error e), [Request.head (docUrl cfg id)]) := by
        rw [← hp, ← get_latest_revision_trace]
      simp [delete_object_by_id, hpair]
    | ok rev =>
      have hpair : get_latest_revision env cfg id
          = (.value (.ok rev), [Request.head (docUrl cfg id)]) := by
        rw [← hp, ← get_latest_revision_trace]
      cases hs : sendJson env (.delete (docUrl cfg id ++ "?rev=" ++ rev)) <;>
        simp [delete_object_by_id, hpair, hs]

/-- A probe response whose headers happen to be named `error` and `reason`:
the collected header map then forms an error envelope. -/
def envEnvelopeHdrs : Env := fun _ =>
  .ok ⟨[("error", some "boom"), ("reason", some "bad")], .ok .null⟩

/-- C7 counterexample: a probe response whose headers are named `error` and
`reason` and which carries no `etag` at all makes get_latest_revision fail
with the database error built from those header values — not with
Custom "Invalid etag header" — although no usable etag can be extracted
from this probe response. -/
theorem get_latest_revision_envelope_headers_cex :
    (get_latest_revision envEnvelopeHdrs cfgW "d1").1
        = .value (.error (.CouchDB ⟨"boom", "bad"⟩)) ∧
    getMap (collectHeaders [("error", some "boom"), ("reason", some "bad")])
        "etag" = none ∧
    Error.CouchDB ⟨"boom", "bad"⟩ ≠ Error.Custom "Invalid etag header" :=
  ⟨rfl, rfl, by decide⟩

/-- C7 amended: for every probe response that arrives but whose collected
header map holds no `etag` key — provided that map is not itself an error
envelope (headers named both `error` and `reason`, in which case the
database error wins) — get_latest_revision fails with
Custom "Invalid etag header" after the single probe request, with no retry.
(A present-but-non-string etag cannot arise: collected header values are
always strings.) -/
theorem get_latest_revision_missing_etag_custom_error (env : Env)
    (cfg : Config) (id : String) (resp : Response)
    (hsend : env (.head (docUrl cfg id)) = .ok resp)
    (henv : (containsKey (collectHeaders resp.headers) "error"
        && containsKey (collectHeaders resp.headers) "reason") = false)
    (hetag : getMap (collectHeaders resp.headers) "etag" = none) :
    get_latest_revision env cfg id
      = (.value (.error (.Custom "Invalid etag header")),
         [Request.head (docUrl cfg id)]) :=
  get_latest_revision_of_no_etag env cfg id resp hsend henv hetag

def envNoEtag : Env := fun _ => .ok ⟨[("server", some "CouchDB")], .ok .null⟩

theorem get_latest_revision_missing_etag_custom_error_witness :
    get_latest_revision envNoEtag cfgW "d1"
      = (.value (.error (.Custom "Invalid etag header")),
         [Request.head (docUrl cfgW "d1")]) :=
  get_latest_revision_missing_etag_custom_error envNoEtag cfgW "d1"
    ⟨[("server", some "CouchDB")], .ok .null⟩ rfl rfl rfl

/-- C8: every response value that is not an error envelope (not a top-level
object with both `error` and `reason` keys) and that the target-type
deserializer rejects makes to_result fail with the Serde variant of the
unified error type, carrying the deserializer's message. -/
theorem to_result_deserialization_failure_serde {D : Type}
    (deser : Value → Except String D) (value : Value) (e : String)
    (hne : isErrorEnvelope value = false)
    (hd : deser value = .error e) :
    to_result deser value = .value (.error (.Serde e)) := by
  cases value with
  | obj map =>
    have hck : (containsKey map "error" && containsKey map "reason") = false := by
      simpa [isErrorEnvelope] using hne
    simp [to_result, hck, hd]
  | null => simp [to_result, hd]
  | bool b => simp [to_result, hd]
  | num n => simp [to_result, hd]
  | str s => simp [to_result, hd]
  | arr xs => simp [to_result, hd]

theorem to_result_deserialization_failure_serde_witness :
    to_result (fun _ => (.error "bad type" : Except String Nat)) (.str "zz")
      = .value (.error (.Serde "bad type")) :=
  to_result_deserialization_failure_serde
    (fun _ => (.error "bad type" : Except String Nat)) (.str "zz")
    "bad type" rfl rfl

/-- C9: when the HEAD request is answered, head returns — without error — a
JSON object that maps a header name to a string value exactly when some
value sent under that name decodes as valid text (the value kept is the
last decodable one, as later duplicates overwrite earlier ones), and
silently omits every name all of whose values fail to decode. -/
theorem headReq_collects_decodable_headers (env : Env) (url : String)
    (resp : Response)
    (hsend : env (.head url) = .ok resp) :
    headReq env url = .ok (.obj (collectHeaders resp.headers)) ∧
    ∀ k, getMap (collectHeaders resp.headers) k
      = (lookupLastDecodable k resp.headers).map Value.str :=
  ⟨by simp [headReq, hsend], fun k => getMap_collectHeaders _ k⟩

def hdrsW : List (String × Option String) :=
  [("etag", some "\"1-x\""), ("x-bin", none), ("server", some "CouchDB")]

def envHdrs : Env := fun _ => .ok ⟨hdrsW, .ok .null⟩

theorem headReq_collects_decodable_headers_witness :
    headReq envHdrs "http://u:p@localhost:5984/db/d1"
        = .ok (.obj (collectHeaders hdrsW)) ∧
    ∀ k, getMap (collectHeaders hdrsW) k
      = (lookupLastDecodable k hdrsW).map Value.str :=
  headReq_collects_decodable_headers envHdrs
    "http://u:p@localhost:5984/db/d1" ⟨hdrsW, .ok .null⟩ rfl

/-- C10: frame conditions of the mutating operations on the document they
receive mutably, for implementations where `update_rev` establishes the
revision: a document that already carries a revision tag is returned
completely unchanged by both update_object and delete_object; a document
without one is returned changed by exactly one `update_rev` call carrying
the probed revision when the probe succeeds, and completely unchanged when
the probe fails (error or panic). -/
theorem mutating_ops_frame {α D : Type} [Serializable α] [CouchDBObject α]
    (hcontract : ∀ (a : α) (r : String), has_rev (update_rev a r) = true)
    (env : Env) (cfg : Config) (deser : Value → Except String D)
    (fuel : Nat) (body : α) :
    (has_rev body = true →
       (∃ outU trU, update_object env cfg deser (fuel + 2) body
           = some (outU, body, trU)) ∧
       (∃ outD trD, delete_object env cfg deser (fuel + 2) body
           = some (outD, body, trD))) ∧
    (has_rev body = false →
       match (get_latest_revision env cfg (get_id body)).1 with
       | .value (.ok rev) =>
         (∃ outU trU, update_object env cfg deser (fuel + 2) body
             = some (outU, update_rev body rev, trU)) ∧
         (∃ outD trD, delete_object env cfg deser (fuel + 2) body
             = some (outD, update_rev body rev, trD))
       | _ =>
         (∃ outU trU, update_object env cfg deser (fuel + 2) body
             = some (outU, body, trU)) ∧
         (∃ outD trD, delete_object env cfg deser (fuel + 2) body
             = some (outD, body, trD))) := by
  constructor
  · intro h
    obtain ⟨outU, hU⟩ := update_object_of_has_rev env cfg deser (fuel + 1) body h
    obtain ⟨outD, trD, hD, _⟩ :=
      delete_object_of_has_rev env cfg deser (fuel + 1) body h
    exact ⟨⟨outU, _, hU⟩, ⟨outD, trD, hD⟩⟩
  · intro h
    cases hp : (get_latest_revision env cfg (get_id body)).1 with
    | panicked m =>
      exact ⟨⟨.panicked m, _,
          update_object_of_probe_panic env cfg deser (fuel + 1) body m h hp⟩,
        ⟨.panicked m, _,
          delete_object_of_probe_panic env cfg deser (fuel + 1) body m h hp⟩⟩
    | value x =>
      cases x with
      | error e =>
        exact ⟨⟨.value (.error e), _,
            update_object_of_probe_err env cfg deser (fuel + 1) body e h hp⟩,
          ⟨.value (.error e), _,
            delete_object_of_probe_err env cfg deser (fuel + 1) body e h hp⟩⟩
      | ok rev =>
        obtain ⟨outU, hU⟩ := update_object_of_probe_ok env cfg deser fuel
          body rev h (hcontract body rev) hp
        obtain ⟨outD, trD2, hD, _⟩ := delete_object_of_probe_ok env cfg deser
          fuel body rev h (hcontract body rev) hp
        exact ⟨⟨outU, _, hU⟩, ⟨outD, _, hD⟩⟩

theorem mutating_ops_frame_witness :
    (has_rev docNoRev = true →
       (∃ outU trU, update_object envW cfgW deserId 2 docNoRev
           = some (outU, docNoRev, trU)) ∧
       (∃ outD trD, delete_object envW cfgW deserId 2 docNoRev
           = some (outD, docNoRev, trD))) ∧
    (has_rev docNoRev = false →
       match (get_latest_revision envW cfgW (get_id docNoRev)).1 with
       | .value (.ok rev) =>
         (∃ outU trU, update_object envW cfgW deserId 2 docNoRev
             = some (outU, update_rev docNoRev rev, trU)) ∧
         (∃ outD trD, delete_object envW cfgW deserId 2 docNoRev
             = some (outD, update_rev docNoRev rev, trD))
       | _ =>
         (∃ outU trU, update_object envW cfgW deserId 2 docNoRev
             = some (outU, docNoRev, trU)) ∧
         (∃ outD trD, delete_object envW cfgW deserId 2 docNoRev
             = some (outD, docNoRev, trD))) :=
  mutating_ops_frame (fun _ _ => rfl) envW cfgW deserId 0 docNoRev

end Rustbank
